import Mathlib

/-!
Verification of the debrid resolution and caching engine of the
torrentio-scraper addon.  The definitions below shallowly embed the
JavaScript source (`src/addon/addon.js`, `src/unnamed/part_000`,
`src/unnamed/part_001`): remote provider interactions become a fixed
oracle structure, promise rejection becomes `Except`, and the provider
calls a computation performs are collected in an explicit log so that
frame ("issues zero provider calls") properties can be stated.
-/

namespace Scraper

/-- Modelled from the spec: `isVideo` lives in `lib/extension`, which is not
among the repository's staged files.  The spec calls these the "recognized
video files", so the model recognises a filename by its extension. -/
def videoExtensions : List String :=
  [".mkv", ".mp4", ".avi", ".mov", ".wmv", ".webm", ".mpg", ".mpeg", ".m4v", ".ts"]

/-- ASCII lower-casing of one character (`String.toLowerCase` of JS on the
ASCII range relevant to info hashes and statuses). -/
def charToLower (c : Char) : Char :=
  if 'A' ≤ c ∧ c ≤ 'Z' then Char.ofNat (c.toNat + 32) else c

/-- `s.toLowerCase()` on a string, character by character. -/
def strToLower (s : String) : String := ⟨s.data.map charToLower⟩

/-- Decidable equality on `Except`, so that concrete runs of the modelled
operations can be checked with `decide`. -/
instance {ε α : Type} [DecidableEq ε] [DecidableEq α] :
    DecidableEq (Except ε α)
  | Except.ok x, Except.ok y =>
      if h : x = y then Decidable.isTrue (by rw [h])
      else Decidable.isFalse (by simp [h])
  | Except.error x, Except.error y =>
      if h : x = y then Decidable.isTrue (by rw [h])
      else Decidable.isFalse (by simp [h])
  | Except.ok _, Except.error _ => Decidable.isFalse (by simp)
  | Except.error _, Except.ok _ => Decidable.isFalse (by simp)

/-- Suffix test on the character lists of two strings (the built-in
byte-position `String.endsWith` does not reduce inside the kernel). -/
def strEndsWith (s suff : String) : Bool :=
  List.isSuffixOf suff.data s.data

/-- Modelled from the spec: a recognized video file name. -/
def isVideo (filename : String) : Bool :=
  videoExtensions.any (fun ext => strEndsWith filename ext)

/-- Modelled from the spec: an archive file name (`isArchive` of
`lib/extension`, also absent from the staged files). -/
def isArchive (filename : String) : Bool :=
  [".rar", ".zip", ".7z"].any (fun ext => strEndsWith filename ext)

/-- `MIN_SIZE = 5 * 1024 * 1024` (5 MB), from both resolver variants. -/
def MIN_SIZE : Nat := 5 * 1024 * 1024

/-- Stable insertion step for `sortDescBy`: `x` is placed in front of the
first element whose key is not larger than `x`'s. -/
def insertDescBy {α : Type} (key : α → Nat) (x : α) : List α → List α
  | [] => [x]
  | h :: t => if key h ≤ key x then x :: h :: t else h :: insertDescBy key x t

/-- Stable sort by a numeric key in descending order.  This is the semantics
of the JavaScript `array.sort((a, b) => key(b) - key(a))`: `Array.sort` is
stable, so elements with equal keys keep their original relative order. -/
def sortDescBy {α : Type} (key : α → Nat) : List α → List α
  | [] => []
  | x :: xs => insertDescBy key x (sortDescBy key xs)

theorem mem_insertDescBy {α : Type} (key : α → Nat) (x a : α) (l : List α) :
    a ∈ insertDescBy key x l ↔ a = x ∨ a ∈ l := by
  induction l with
  | nil => simp [insertDescBy]
  | cons h t ih =>
      by_cases hk : key h ≤ key x
      · simp [insertDescBy, hk]
      · simp [insertDescBy, hk, ih]
        tauto

theorem mem_sortDescBy {α : Type} (key : α → Nat) (a : α) (l : List α) :
    a ∈ sortDescBy key l ↔ a ∈ l := by
  induction l with
  | nil => simp [sortDescBy]
  | cons x xs ih => simp [sortDescBy, mem_insertDescBy, ih]

theorem pairwise_insertDescBy {α : Type} (key : α → Nat) (x : α) (l : List α)
    (hl : l.Pairwise (fun a b => key b ≤ key a)) :
    (insertDescBy key x l).Pairwise (fun a b => key b ≤ key a) := by
  induction l with
  | nil => simp [insertDescBy]
  | cons h t ih =>
      rcases List.pairwise_cons.mp hl with ⟨hh, ht⟩
      by_cases hk : key h ≤ key x
      · rw [insertDescBy, if_pos hk]
        refine List.pairwise_cons.mpr ⟨?_, hl⟩
        intro b hb
        rcases List.mem_cons.mp hb with rfl | hb
        · exact hk
        · exact le_trans (hh b hb) hk
      · rw [insertDescBy, if_neg hk]
        refine List.pairwise_cons.mpr ⟨?_, ih ht⟩
        intro b hb
        rcases (mem_insertDescBy key x b t).mp hb with rfl | hb
        · exact le_of_lt (lt_of_not_le hk)
        · exact hh b hb

theorem pairwise_sortDescBy {α : Type} (key : α → Nat) (l : List α) :
    (sortDescBy key l).Pairwise (fun a b => key b ≤ key a) := by
  induction l with
  | nil => simp [sortDescBy]
  | cons x xs ih => exact pairwise_insertDescBy key x (sortDescBy key xs) ih

/-! ## Availability-result normalisation (`getCachedIds`, addon.js 316-327)

A RealDebrid instant-availability entry for one info hash maps each hoster
to a list of "copies"; a copy is a JavaScript object from file id (a decimal
string) to `{filename, filesize}`.  A copy is embedded as an association
list of `(file id, filename)` pairs. -/

/-- One cached copy: the JS object from file-id string to its file record,
kept as the list of its entries (`Object.keys` / `Object.values` order). -/
abbrev Copy := List (String × String)

/-- The shape of `hosterResults` as received from the wire: `null` /
`undefined`, a JSON array (both rejected by the guard), or an object whose
values are the per-hoster lists of copies. -/
inductive HosterResults where
  | nullish
  | jsArray
  | obj (hosters : List (List Copy))
deriving DecidableEq

/-- The final filter of `getCachedIds`:
`.filter((cached, index, array) => index === 0 || cached.some(id => !array[0].includes(id)))`.
The element at index 0 is always kept; a later element is kept exactly when
it holds an id absent from the element at index 0. -/
def keepNonDominated : List (List String) → List (List String)
  | [] => []
  | g0 :: rest => g0 :: rest.filter (fun g => g.any (fun id => !(g0.contains id)))

/-- `getCachedIds(hosterResults)` (addon.js 316-327): flatten all hosters'
copies, keep non-empty copies whose files are all videos, take each copy's
file-id key set, sort by descending size, then keep the first group plus
every later group holding an id absent from the first. -/
def getCachedIds : HosterResults → List (List String)
  | HosterResults.nullish => []
  | HosterResults.jsArray => []
  | HosterResults.obj hosters =>
      let copies := hosters.foldl (fun a b => a ++ b) []
      let survivors := copies.filter
        (fun c => decide (c.length ≠ 0) && c.all (fun kv => isVideo kv.2))
      let groups := survivors.map (fun c => c.map (fun kv => kv.1))
      keepNonDominated (sortDescBy List.length groups)

/-- Every `getCachedIds` result is `keepNonDominated` of a length-sorted
group list. -/
theorem getCachedIds_shape (hr : HosterResults) :
    ∃ gs, getCachedIds hr = keepNonDominated (sortDescBy List.length gs) := by
  cases hr with
  | nullish => exact ⟨[], rfl⟩
  | jsArray => exact ⟨[], rfl⟩
  | obj hosters => exact ⟨_, rfl⟩

theorem keepNonDominated_pairwise (gs : List (List String)) :
    (keepNonDominated (sortDescBy List.length gs)).Pairwise
      (fun a b => b.length ≤ a.length) := by
  have hp := pairwise_sortDescBy List.length gs
  cases hs : sortDescBy List.length gs with
  | nil => simp [keepNonDominated]
  | cons g0 rest =>
      rw [hs] at hp
      have hsub : List.Sublist
          (g0 :: rest.filter (fun g => g.any (fun id => !(g0.contains id))))
          (g0 :: rest) := List.Sublist.cons₂ g0 (List.filter_sublist rest)
      simpa [keepNonDominated] using hp.sublist hsub

theorem keepNonDominated_head (gs : List (List String)) (g0 : List String)
    (rest : List (List String))
    (h : keepNonDominated (sortDescBy List.length gs) = g0 :: rest) :
    (∀ g ∈ g0 :: rest, g.length ≤ g0.length) ∧
      (∀ g ∈ rest, ∃ id ∈ g, g0.contains id = false) := by
  have hp := pairwise_sortDescBy List.length gs
  cases hs : sortDescBy List.length gs with
  | nil => rw [hs] at h; simp [keepNonDominated] at h
  | cons h0 t =>
      rw [hs] at h hp
      simp only [keepNonDominated, List.cons.injEq] at h
      obtain ⟨rfl, hrest⟩ := h
      rcases List.pairwise_cons.mp hp with ⟨hh, -⟩
      constructor
      · intro g hg
        rcases List.mem_cons.mp hg with rfl | hg
        · exact le_rfl
        · rw [← hrest] at hg
          exact hh g (List.mem_of_mem_filter hg)
      · intro g hg
        rw [← hrest] at hg
        have hpg := List.of_mem_filter hg
        rcases List.any_eq_true.mp hpg with ⟨id, hid, hmem⟩
        exact ⟨id, hid, by simpa using hmem⟩

/-- A concrete hoster result: one copy with the two video files `1`, `2` and
one copy that is a strict file-id subset of it (just file `1`). -/
def subsetPairHoster : HosterResults :=
  HosterResults.obj [[[("1", "a.mkv"), ("2", "b.mkv")], [("1", "a.mkv")]]]

/-- C2: for every hoster availability result, the computed list of cached
file-id groups is ordered by descending cardinality, group 0 is the largest,
and every group after the first contains at least one file id absent from
group 0; moreover a hoster result with one all-video copy and one copy that
is a strict file-id subset of it yields exactly one group. -/
theorem claim_getCachedIds_groups :
    (∀ hr : HosterResults,
        ((getCachedIds hr).Pairwise (fun a b => b.length ≤ a.length)) ∧
        (∀ g0 rest, getCachedIds hr = g0 :: rest →
          (∀ g ∈ g0 :: rest, g.length ≤ g0.length) ∧
          (∀ g ∈ rest, ∃ id ∈ g, g0.contains id = false))) ∧
      getCachedIds subsetPairHoster = [["1", "2"]] := by
  constructor
  · intro hr
    obtain ⟨gs, hgs⟩ := getCachedIds_shape hr
    rw [hgs]
    exact ⟨keepNonDominated_pairwise gs,
      fun g0 rest h => keepNonDominated_head gs g0 rest h⟩
  · decide

/-! ## The torrent lifecycle resolver (addon.js 386-576)

The RealDebrid account is modelled as a fixed oracle (`RD`): the spec's
concurrency model (§5) makes every provider call a suspension point but the
engine never trusts a snapshot beyond one resolve call, so the remote state
is held constant during the one call under analysis.  Promise rejection is
`Except.error`; every provider interaction is recorded in a `PCall` log. -/

/-- One entry of a remote job's `files` array. -/
structure RDFile where
  id : Nat
  path : String
  bytes : Nat
  selected : Bool
deriving DecidableEq

/-- A remote torrent job as returned by `RD.torrents.info`. -/
structure Torrent where
  id : String
  hash : String
  status : String
  files : List RDFile
  links : List String
deriving DecidableEq

/-- A provider call, recorded in the log of each modelled operation. -/
inductive PCall where
  | listTorrents
  | torrentInfo (torrentId : String)
  | addMagnet (magnet : String)
  | selectFiles (torrentId : String) (fileIds : String)
  | unrestrict (link : String)
  | instantAvail (batch : List String)
deriving DecidableEq

/-- The response of `RD.unrestrict.link`. -/
structure UnrestrictResp where
  download : String
deriving DecidableEq

/-- The provider oracle: one response per kind of call. `info = none`
models a rejected `RD.torrents.info` call, `selectOk = false` a rejected
`RD.torrents.selectFiles`, `unrestrictResp = .error code` a rejection of
`RD.unrestrict.link` carrying the provider error code. -/
structure RD where
  recent : List Torrent
  info : String → Option Torrent
  addMagnetId : String → String
  selectOk : String → String → Bool
  unrestrictResp : String → Except Int UnrestrictResp

/-- The reasons a modelled promise chain can reject. -/
inductive Rej where
  | noTorrentId
  | infoFailed (torrentId : String)
  | noRecentTorrent
  | selectionFailed
  | selectRejected
  | noLinks (hash : String)
  | addTorrentFailed
  | unrestrictErr (code : Int)
  | typeErrorUndef
  | outOfFuel
deriving DecidableEq

/-- The non-rejecting outcomes of `_resolve`: a direct URL or one of the
`StaticResponse` pending reasons (`./moch/static` is not among the staged
files; the spec names them Downloading, OpeningFailed, DownloadFailed and
UnsupportedArchive). -/
inductive Resolved where
  | url (link : String)
  | downloading
  | failedOpening
  | failedDownload
  | failedRar
deriving DecidableEq

/-- `statusError` (addon.js 550-552). -/
def statusError (status : String) : Bool :=
  (["error", "magnet_error"] : List String).contains status

/-- `statusMagnetError` (addon.js 554-556). -/
def statusMagnetError (status : String) : Bool :=
  status == "magnet_error"

/-- `statusOpening` (addon.js 558-560). -/
def statusOpening (status : String) : Bool :=
  status == "magnet_conversion"

/-- `statusWaitingSelection` (addon.js 562-564). -/
def statusWaitingSelection (status : String) : Bool :=
  status == "waiting_files_selection"

/-- `statusDownloading` (addon.js 566-568). -/
def statusDownloading (status : String) : Bool :=
  (["downloading", "uploading", "queued"] : List String).contains status

/-- `statusReady` (addon.js 570-572): the provider's `dead` status counts
as ready in this variant. -/
def statusReady (status : String) : Bool :=
  (["downloaded", "dead"] : List String).contains status

/-- `_getTorrentInfo` (addon.js 454-459) on a string torrent id: a falsy id
rejects without a call, otherwise the info call is made. -/
def getTorrentInfo (rd : RD) (torrentId : String) :
    Except Rej Torrent × List PCall :=
  if torrentId = "" then (Except.error Rej.noTorrentId, [])
  else
    match rd.info torrentId with
    | some torrent => (Except.ok torrent, [PCall.torrentInfo torrentId])
    | none => (Except.error (Rej.infoFailed torrentId), [PCall.torrentInfo torrentId])

/-- `_openTorrent` (addon.js 498-503): poll the job while it is in
`magnet_conversion`, at most `maxPollNumber = 15` attempts, and return the
last snapshot either way.  The JavaScript counts `pollCounter` up to 15;
here `fuel` is the remaining attempt budget `15 - pollCounter` (15 at
entry), so the recursion is structural. -/
def openTorrent (rd : RD) (torrentId : String) : Nat → Except Rej Torrent × List PCall
  | 0 => getTorrentInfo rd torrentId
  | fuel + 1 =>
      match getTorrentInfo rd torrentId with
      | (Except.ok torrent, log) =>
          if statusOpening torrent.status then
            let next := openTorrent rd torrentId fuel
            (next.1, log ++ next.2)
          else (Except.ok torrent, log)
      | (Except.error e, log) => (Except.error e, log)

/-- The file-id list string of the no-index branch of `_selectTorrentFiles`
(addon.js 488-492): every recognized video file over `MIN_SIZE`, ids joined
with commas. -/
def videoFileIds (files : List RDFile) : String :=
  String.intercalate ","
    (((files.filter (fun file => isVideo file.path)).filter
        (fun file => decide (MIN_SIZE < file.bytes))).map
      (fun file => toString file.id))

/-- The `videoFileIds` expression of `_selectTorrentFiles` (addon.js
488-492): exactly `fileIndex + 1` when an integer `fileIndex` was passed
(`Number.isInteger(fileIndex)`), else every video file over 5 MB. -/
def selectFileIds (fileIndex : Option Nat) (files : List RDFile) : String :=
  match fileIndex with
  | some fi => toString (fi + 1)
  | none => videoFileIds files

/-- The second half of `_selectTorrentFiles` (addon.js 487-495), applied to
the (re-)fetched job: in `waiting_files_selection` issue the `selectFiles`
call, otherwise reject with the selection failure. -/
def selectOnWaiting (rd : RD) (t : Torrent) (fileIndex : Option Nat)
    (log : List PCall) : Except Rej Unit × List PCall :=
  if statusWaitingSelection t.status then
    let ids := selectFileIds fileIndex t.files
    if rd.selectOk t.id ids then
      (Except.ok (), log ++ [PCall.selectFiles t.id ids])
    else (Except.error Rej.selectRejected, log ++ [PCall.selectFiles t.id ids])
  else (Except.error Rej.selectionFailed, log)

/-- `_selectTorrentFiles` (addon.js 485-496): ensure the job has left
`magnet_conversion`, then select in the `waiting_files_selection` state. -/
def selectTorrentFiles (rd : RD) (torrent : Torrent)
    (fileIndex : Option Nat := none) : Except Rej Unit × List PCall :=
  let opened :=
    if statusWaitingSelection torrent.status then (Except.ok torrent, ([] : List PCall))
    else openTorrent rd torrent.id 15
  match opened with
  | (Except.error e, log) => (Except.error e, log)
  | (Except.ok t, log) => selectOnWaiting rd t fileIndex log

/-- Modelled from the spec: the external magnet link builder
(`lib/magnetHelper`, an external collaborator per §6). -/
def getMagnetLink (infoHash : String) : String :=
  "magnet:?xt=urn:btih:" ++ infoHash

/-- `_createTorrentId` (addon.js 461-468): add the magnet and, when a
truthy `cachedFileIds` other than the strings `"null"` / `"undefined"` was
given, immediately select exactly those files. -/
def createTorrentId (rd : RD) (infoHash : String)
    (cachedFileIds : Option String := none) : Except Rej String × List PCall :=
  let magnetLink := getMagnetLink infoHash
  let addedId := rd.addMagnetId magnetLink
  let log0 := [PCall.addMagnet magnetLink]
  match cachedFileIds with
  | some ids =>
      if ids ≠ "" ∧ ids ≠ "null" ∧ ids ≠ "undefined" then
        if rd.selectOk addedId ids then
          (Except.ok addedId, log0 ++ [PCall.selectFiles addedId ids])
        else (Except.error Rej.selectRejected, log0 ++ [PCall.selectFiles addedId ids])
      else (Except.ok addedId, log0)
  | none => (Except.ok addedId, log0)

/-- `_recreateTorrentId` (addon.js 470-474): fresh magnet (no cached-id
hint) followed by a fresh `_selectTorrentFiles` on a bare `{id}` object
(modelled with empty placeholder fields, none of which the selection path
reads before re-fetching the job). -/
def recreateTorrentId (rd : RD) (infoHash : String) (fileIndex : Option Nat) :
    Except Rej String × List PCall :=
  match createTorrentId rd infoHash none with
  | (Except.error e, log) => (Except.error e, log)
  | (Except.ok newTorrentId, log) =>
      let sel := selectTorrentFiles rd
        { id := newTorrentId, hash := "", status := "", files := [], links := [] }
        fileIndex
      match sel.1 with
      | Except.error e => (Except.error e, log ++ sel.2)
      | Except.ok _ => (Except.ok newTorrentId, log ++ sel.2)

mutual

/-- `_retryCreateTorrent` (addon.js 476-483): recreate the job, fetch the
new job's info, and unrestrict when it is ready — any other status yields
`FAILED_DOWNLOAD`.  The JavaScript leaves the code-19 retry cycle
unbounded; `fuel` bounds it structurally, each mutual call consuming one
unit, with exhaustion the distinguished `outOfFuel` rejection. -/
def retryCreateTorrent : Nat → RD → String → Option Nat →
    Except Rej Resolved × List PCall
  | 0, _, _, _ => (Except.error Rej.outOfFuel, [])
  | fuel + 1, rd, infoHash, fileIndex =>
      match recreateTorrentId rd infoHash fileIndex with
      | (Except.error e, log) => (Except.error e, log)
      | (Except.ok newTorrentId, log) =>
          match getTorrentInfo rd newTorrentId with
          | (Except.error e, log2) => (Except.error e, log ++ log2)
          | (Except.ok newTorrent, log2) =>
              if statusReady newTorrent.status then
                let r := unrestrictLink fuel rd newTorrent fileIndex
                (r.1, log ++ log2 ++ r.2)
              else (Except.ok Resolved.failedDownload, log ++ log2)

/-- `_unrestrictLink` (addon.js 505-524): target the file with wire id
`fileIndex + 1`, falling back to the largest selected file; an unselected
target triggers a recreation and reports Downloading; otherwise pick the
job's single link or the link at the target's rank among selected files. -/
def unrestrictLink : Nat → RD → Torrent → Option Nat →
    Except Rej Resolved × List PCall
  | 0, _, _, _ => (Except.error Rej.outOfFuel, [])
  | fuel + 1, rd, torrent, fileIndex =>
      let found :=
        match fileIndex with
        | some fi => torrent.files.find? (fun file => file.id == fi + 1)
        | none => none
      let target :=
        match found with
        | some f => some f
        | none =>
            (sortDescBy RDFile.bytes
              (torrent.files.filter (fun file => file.selected))).head?
      match target with
      | none => (Except.error Rej.typeErrorUndef, [])
      | some targetFile =>
          if !targetFile.selected then
            match recreateTorrentId rd (strToLower torrent.hash) fileIndex with
            | (Except.error e, log) => (Except.error e, log)
            | (Except.ok _, log) => (Except.ok Resolved.downloading, log)
          else
            let selectedFiles := torrent.files.filter (fun file => file.selected)
            let fileLink :=
              if torrent.links.length = 1 then torrent.links.head?
              else torrent.links.get? (List.indexOf targetFile selectedFiles)
            match fileLink with
            | none => (Except.error (Rej.noLinks torrent.hash), [])
            | some link =>
                if link = "" then (Except.error (Rej.noLinks torrent.hash), [])
                else unrestrictFileLink fuel rd link torrent fileIndex

/-- `_unrestrictFileLink` (addon.js 526-548): unrestrict the link; an
archive download is `FAILED_RAR`, provider error code 19 (link already
consumed) recreates the job once more, any other error is re-raised. -/
def unrestrictFileLink : Nat → RD → String → Torrent → Option Nat →
    Except Rej Resolved × List PCall
  | 0, _, _, _, _ => (Except.error Rej.outOfFuel, [])
  | fuel + 1, rd, fileLink, torrent, fileIndex =>
      match rd.unrestrictResp fileLink with
      | Except.ok resp =>
          if isArchive resp.download then
            (Except.ok Resolved.failedRar, [PCall.unrestrict fileLink])
          else (Except.ok (Resolved.url resp.download), [PCall.unrestrict fileLink])
      | Except.error code =>
          if code = 19 then
            let r := retryCreateTorrent fuel rd (strToLower torrent.hash) fileIndex
            (r.1, PCall.unrestrict fileLink :: r.2)
          else (Except.error (Rej.unrestrictErr code), [PCall.unrestrict fileLink])

end

/-- The status dispatch (step 2) of `_resolve` (addon.js 401-427), applied
to the fetched job snapshot.  Note that the `waiting_files_selection` /
`magnet_conversion` branch calls `_selectTorrentFiles(RD, torrent)` with no
`fileIndex` argument. -/
def resolveDispatch (fuel : Nat) (rd : RD) (torrent : Torrent)
    (infoHash : String) (fileIndex : Option Nat) :
    Except Rej Resolved × List PCall :=
  if statusReady torrent.status then unrestrictLink fuel rd torrent fileIndex
  else if statusDownloading torrent.status then (Except.ok Resolved.downloading, [])
  else if statusMagnetError torrent.status then (Except.ok Resolved.failedOpening, [])
  else if statusError torrent.status then retryCreateTorrent fuel rd infoHash fileIndex
  else if statusWaitingSelection torrent.status || statusOpening torrent.status then
    let sel := selectTorrentFiles rd torrent
    match sel.1 with
    | Except.ok _ => (Except.ok Resolved.downloading, sel.2)
    | Except.error _ => (Except.ok Resolved.failedOpening, sel.2)
  else (Except.error Rej.addTorrentFailed, [])

/-- `_findBestFitTorrent` (addon.js 443-452): with several candidates,
fetch each one's info (all-or-nothing, as `Promise.all`), keep those whose
selected files already include wire id `fileIndex + 1`, and prefer the one
with the most links; fall back to the first candidate. -/
def findBestFitTorrent (rd : RD) (torrents : List Torrent)
    (fileIndex : Option Nat) : Except Rej (Option Torrent) × List PCall :=
  if torrents.length = 1 then (Except.ok torrents.head?, [])
  else
    let logs := torrents.map (fun t => PCall.torrentInfo t.id)
    if torrents.all (fun t => (rd.info t.id).isSome) then
      let torrentInfos := torrents.filterMap (fun t => rd.info t.id)
      let bestFitTorrents := sortDescBy (fun t => t.links.length)
        (torrentInfos.filter (fun t =>
          (t.files.find? (fun f =>
            (match fileIndex with
             | some fi => f.id == fi + 1
             | none => false) && f.selected)).isSome))
      (Except.ok ((bestFitTorrents.head?).orElse (fun _ => torrents.head?)), logs)
    else (Except.error (Rej.infoFailed "bestFit"), logs)

/-- `_findTorrent` (addon.js 434-441): scan the most recent page for jobs
matching the hash case-insensitively and not in an error status, pick the
best fit, and reject when none (or one without an id) is found. -/
def findTorrent (rd : RD) (infoHash : String) (fileIndex : Option Nat) :
    Except Rej String × List PCall :=
  let foundTorrents :=
    (rd.recent.filter (fun t => strToLower t.hash == infoHash)).filter
      (fun t => !statusError t.status)
  match findBestFitTorrent rd foundTorrents fileIndex with
  | (Except.error e, log) => (Except.error e, PCall.listTorrents :: log)
  | (Except.ok found, log) =>
      match found with
      | some t =>
          if t.id ≠ "" then (Except.ok t.id, PCall.listTorrents :: log)
          else (Except.error Rej.noRecentTorrent, PCall.listTorrents :: log)
      | none => (Except.error Rej.noRecentTorrent, PCall.listTorrents :: log)

/-- `_createOrFindTorrentId` (addon.js 429-432): any `_findTorrent`
rejection falls back to creating the torrent. -/
def createOrFindTorrentId (rd : RD) (infoHash : String)
    (cachedFileIds : Option String) (fileIndex : Option Nat) :
    Except Rej String × List PCall :=
  match findTorrent rd infoHash fileIndex with
  | (Except.ok torrentId, log) => (Except.ok torrentId, log)
  | (Except.error _, log) =>
      let c := createTorrentId rd infoHash cachedFileIds
      (c.1, log ++ c.2)

/-- `_resolve` (addon.js 401-427): locate or create the job, fetch its
info, and run the status dispatch. -/
def resolveRD (fuel : Nat) (rd : RD) (infoHash : String)
    (cachedEntryInfo : Option String) (fileIndex : Option Nat) :
    Except Rej Resolved × List PCall :=
  match createOrFindTorrentId rd infoHash cachedEntryInfo fileIndex with
  | (Except.error e, log) => (Except.error e, log)
  | (Except.ok torrentId, log) =>
      match getTorrentInfo rd torrentId with
      | (Except.error e, log2) => (Except.error e, log ++ log2)
      | (Except.ok torrent, log2) =>
          let r := resolveDispatch fuel rd torrent infoHash fileIndex
          (r.1, log ++ log2 ++ r.2)

/-! ## C1: the WaitingSelection branch of the dispatch -/

/-- C1 (amended): when the dispatch reaches a job in
`waiting_files_selection`, the selection always selects every recognized
video file over 5 MB — `_resolve` does not forward `fileIndex` to
`_selectTorrentFiles` — and the call returns Downloading on selection
success and OpeningFailed on selection failure. -/
theorem claim_waitingSelection_selection (fuel : Nat) (rd : RD) (t : Torrent)
    (infoHash : String) (fileIndex : Option Nat)
    (h : statusWaitingSelection t.status = true) :
    resolveDispatch fuel rd t infoHash fileIndex =
      if rd.selectOk t.id (videoFileIds t.files) then
        (Except.ok Resolved.downloading, [PCall.selectFiles t.id (videoFileIds t.files)])
      else
        (Except.ok Resolved.failedOpening, [PCall.selectFiles t.id (videoFileIds t.files)]) := by
  rw [statusWaitingSelection] at h
  have hs := eq_of_beq h
  have hsel : selectTorrentFiles rd t none =
      if rd.selectOk t.id (videoFileIds t.files) then
        (Except.ok (), [PCall.selectFiles t.id (videoFileIds t.files)])
      else
        (Except.error Rej.selectRejected, [PCall.selectFiles t.id (videoFileIds t.files)]) := by
    rw [selectTorrentFiles]
    simp only [statusWaitingSelection, hs, beq_self_eq_true, if_true]
    rw [selectOnWaiting]
    simp only [statusWaitingSelection, hs, beq_self_eq_true, if_true, selectFileIds]
    by_cases hok : rd.selectOk t.id (videoFileIds t.files) <;> simp [hok]
  rw [resolveDispatch]
  simp only [statusWaitingSelection, statusReady, statusDownloading,
    statusMagnetError, statusError, statusOpening, hs]
  by_cases hok : rd.selectOk t.id (videoFileIds t.files) <;>
    simp [hsel, hok]

/-- The torrent of the C1 scenario: waiting for selection, with the two
large video files at wire ids 1 and 4. -/
def waitingTorrent : Torrent :=
  { id := "t1", hash := "aa11", status := "waiting_files_selection",
    files := [⟨1, "Movie.Part1.mkv", 6291456, false⟩,
              ⟨4, "Movie.Part2.mkv", 6291456, false⟩],
    links := [] }

/-- An oracle on which every selection succeeds. -/
def selectRD : RD :=
  { recent := [], info := fun _ => none, addMagnetId := fun _ => "newId",
    selectOk := fun _ _ => true, unrestrictResp := fun _ => Except.error 0 }

/-- C1 as frozen is false: with `fileIndex = 3` the dispatch on a
`waiting_files_selection` job selects `"1,4"` (every large video file),
not the wire id `"4"` the claim requires. -/
theorem counterexample_waitingSelection_fileIndex :
    resolveDispatch 1 selectRD waitingTorrent "aa11" (some 3) =
      (Except.ok Resolved.downloading, [PCall.selectFiles "t1" "1,4"]) ∧
      ¬ (toString (3 + 1) = "1,4") := by
  constructor
  · rfl
  · decide

/-- Witness for C1: the amended theorem applied to the concrete waiting
torrent with `fileIndex = 3`. -/
theorem claim_waitingSelection_selection_witness :
    resolveDispatch 1 selectRD waitingTorrent "aa11" (some 3) =
      if selectRD.selectOk waitingTorrent.id (videoFileIds waitingTorrent.files) then
        (Except.ok Resolved.downloading,
          [PCall.selectFiles waitingTorrent.id (videoFileIds waitingTorrent.files)])
      else
        (Except.ok Resolved.failedOpening,
          [PCall.selectFiles waitingTorrent.id (videoFileIds waitingTorrent.files)]) :=
  claim_waitingSelection_selection 1 selectRD waitingTorrent "aa11" (some 3) (by decide)

/-! ## C3: the Erred branch of the dispatch -/

/-- A successful selection phase has issued a `selectFiles` provider
call. -/
theorem selectOnWaiting_ok_mem (rd : RD) (t : Torrent) (fi : Option Nat)
    (log : List PCall) (h : (selectOnWaiting rd t fi log).1 = Except.ok ()) :
    ∃ tid ids, PCall.selectFiles tid ids ∈ (selectOnWaiting rd t fi log).2 := by
  unfold selectOnWaiting at h ⊢
  by_cases hw : statusWaitingSelection t.status
  · simp only [hw, if_true] at h ⊢
    by_cases hok : rd.selectOk t.id (selectFileIds fi t.files)
    · simp only [hok, if_true] at h ⊢
      exact ⟨t.id, selectFileIds fi t.files,
        List.mem_append_right _ (List.mem_singleton.mpr rfl)⟩
    · simp [hok] at h
  · simp [hw] at h

/-- A successful `_selectTorrentFiles` run has issued a `selectFiles`
provider call. -/
theorem selectTorrentFiles_ok_mem (rd : RD) (t : Torrent) (fi : Option Nat)
    (h : (selectTorrentFiles rd t fi).1 = Except.ok ()) :
    ∃ tid ids, PCall.selectFiles tid ids ∈ (selectTorrentFiles rd t fi).2 := by
  unfold selectTorrentFiles at h ⊢
  by_cases hw0 : statusWaitingSelection t.status
  · simp only [hw0, if_true] at h ⊢
    exact selectOnWaiting_ok_mem rd t fi [] h
  · simp only [Bool.not_eq_true] at hw0
    simp only [hw0, Bool.false_eq_true, if_false] at h ⊢
    rcases hopen : openTorrent rd t.id 15 with ⟨res, log⟩
    rw [hopen] at h
    cases res with
    | error e => simp at h
    | ok t2 => exact selectOnWaiting_ok_mem rd t2 fi log h

/-- C3 (amended): on an Erred job the resolver recreates the job — the
recreation issues a fresh magnet and a fresh selection — and then checks
only readiness: a recreated job that is not Ready yields
`FAILED_DOWNLOAD` (the full status dispatch is not re-entered). -/
theorem claim_erred_recreate (fuel : Nat) (rd : RD) (t : Torrent)
    (infoHash : String) (fileIndex : Option Nat)
    (ht : statusError t.status = true) (hm : statusMagnetError t.status = false) :
    resolveDispatch (fuel + 1) rd t infoHash fileIndex =
        retryCreateTorrent (fuel + 1) rd infoHash fileIndex ∧
      ∀ newId log, recreateTorrentId rd infoHash fileIndex = (Except.ok newId, log) →
        ((∃ m, PCall.addMagnet m ∈ log) ∧
          (∃ tid ids, PCall.selectFiles tid ids ∈ log) ∧
          ∀ t2 log2, getTorrentInfo rd newId = (Except.ok t2, log2) →
            statusReady t2.status = false →
              retryCreateTorrent (fuel + 1) rd infoHash fileIndex =
                (Except.ok Resolved.failedDownload, log ++ log2)) := by
  rw [statusMagnetError] at hm
  have hst : t.status = "error" := by
    simp [statusError] at ht
    rcases ht with h1 | h1
    · exact h1
    · rw [h1] at hm; simp at hm
  constructor
  · rw [resolveDispatch]
    simp [statusReady, statusDownloading, statusMagnetError, statusError, hst]
  · intro newId log hrec
    have hrec2 := hrec
    rw [show recreateTorrentId rd infoHash fileIndex =
        (match (selectTorrentFiles rd
            { id := rd.addMagnetId (getMagnetLink infoHash), hash := "",
              status := "", files := [], links := [] } fileIndex).1 with
         | Except.error e =>
             (Except.error e, [PCall.addMagnet (getMagnetLink infoHash)] ++
               (selectTorrentFiles rd
                 { id := rd.addMagnetId (getMagnetLink infoHash), hash := "",
                   status := "", files := [], links := [] } fileIndex).2)
         | Except.ok _ =>
             (Except.ok (rd.addMagnetId (getMagnetLink infoHash)),
               [PCall.addMagnet (getMagnetLink infoHash)] ++
                 (selectTorrentFiles rd
                   { id := rd.addMagnetId (getMagnetLink infoHash), hash := "",
                     status := "", files := [], links := [] } fileIndex).2))
        from rfl] at hrec2
    rcases hsel : selectTorrentFiles rd
        { id := rd.addMagnetId (getMagnetLink infoHash), hash := "", status := "",
          files := [], links := [] } fileIndex with ⟨sres, slog⟩
    rw [hsel] at hrec2
    cases sres with
    | error e => simp at hrec2
    | ok u =>
        simp only [Prod.mk.injEq, Except.ok.injEq] at hrec2
        obtain ⟨hid, hlog⟩ := hrec2
        refine ⟨⟨getMagnetLink infoHash, ?_⟩, ?_, ?_⟩
        · rw [← hlog]; exact List.mem_append_left _ (List.mem_singleton.mpr rfl)
        · have hfst : (selectTorrentFiles rd
              { id := rd.addMagnetId (getMagnetLink infoHash), hash := "",
                status := "", files := [], links := [] } fileIndex).1 =
              Except.ok () := by rw [hsel]
          obtain ⟨tid, ids, hmem⟩ := selectTorrentFiles_ok_mem rd _ fileIndex hfst
          rw [hsel] at hmem
          exact ⟨tid, ids, by rw [← hlog]; exact List.mem_append_right _ hmem⟩
        · intro t2 log2 hinfo hnr
          show retryCreateTorrent (fuel + 1) rd infoHash fileIndex = _
          rw [retryCreateTorrent, hrec]
          simp [hinfo, hnr]

/-- The job the recreation produces in the C3 scenario: it is back in
`waiting_files_selection`, with one large video file. -/
def retryTorrent : Torrent :=
  { id := "t2", hash := "aa11", status := "waiting_files_selection",
    files := [⟨1, "Episode1.mkv", 6291456, false⟩], links := [] }

/-- The oracle of the C3 scenario: adding the magnet yields job `t2`, whose
info is `retryTorrent`; every selection succeeds. -/
def retryRD : RD :=
  { recent := [], info := fun tid => if tid = "t2" then some retryTorrent else none,
    addMagnetId := fun _ => "t2", selectOk := fun _ _ => true,
    unrestrictResp := fun _ => Except.error 0 }

/-- A job in the provider's `error` status. -/
def erredTorrent : Torrent :=
  { id := "t0", hash := "aa11", status := "error", files := [], links := [] }

/-- C3 as frozen is false: after recreating the job the code checks only
readiness, so a recreated job sitting in `waiting_files_selection` yields
`FAILED_DOWNLOAD`, while re-entering the status dispatch on that same job —
what the claim requires — yields Downloading. -/
theorem counterexample_erred_no_redispatch :
    (retryCreateTorrent 1 retryRD "aa11" (some 0)).1 =
        Except.ok Resolved.failedDownload ∧
      (resolveDispatch 1 retryRD retryTorrent "aa11" (some 0)).1 =
        Except.ok Resolved.downloading ∧
      Resolved.failedDownload ≠ Resolved.downloading :=
  ⟨rfl, rfl, by decide⟩

/-- Witness for C3: the amended theorem applied to the Erred job and the
concrete recreation oracle. -/
theorem claim_erred_recreate_witness :
    resolveDispatch (0 + 1) retryRD erredTorrent "aa11" (some 0) =
        retryCreateTorrent (0 + 1) retryRD "aa11" (some 0) ∧
      ∀ newId log,
        recreateTorrentId retryRD "aa11" (some 0) = (Except.ok newId, log) →
        ((∃ m, PCall.addMagnet m ∈ log) ∧
          (∃ tid ids, PCall.selectFiles tid ids ∈ log) ∧
          ∀ t2 log2, getTorrentInfo retryRD newId = (Except.ok t2, log2) →
            statusReady t2.status = false →
              retryCreateTorrent (0 + 1) retryRD "aa11" (some 0) =
                (Except.ok Resolved.failedDownload, log ++ log2)) :=
  claim_erred_recreate 0 retryRD erredTorrent "aa11" (some 0) (by decide) (by decide)

/-! ## C9: the two provider-variant status classifications

`src/unnamed/part_000` is the other RealDebrid variant of the same module;
its status classifiers (part_000 lines 266-288) live in the `Legacy`
namespace. -/

namespace Legacy

/-- `statusError` (part_000 266-268): `dead` counts as an error here. -/
def statusError (status : String) : Bool :=
  (["error", "magnet_error", "dead"] : List String).contains status

/-- `statusMagnetError` (part_000 270-272). -/
def statusMagnetError (status : String) : Bool :=
  status == "magnet_error"

/-- `statusOpening` (part_000 274-276). -/
def statusOpening (status : String) : Bool :=
  status == "magnet_conversion"

/-- `statusWaitingSelection` (part_000 278-280). -/
def statusWaitingSelection (status : String) : Bool :=
  status == "waiting_files_selection"

/-- `statusDownloading` (part_000 282-284). -/
def statusDownloading (status : String) : Bool :=
  (["downloading", "uploading", "queued"] : List String).contains status

/-- `statusReady` (part_000 286-288): only `downloaded` is ready; `dead`
is not. -/
def statusReady (status : String) : Bool :=
  (["downloaded"] : List String).contains status

end Legacy

/-- C9 as frozen is false: the two variants disagree at the `dead` status —
Ready in the addon.js variant, an error (and not Ready) in the other. -/
theorem counterexample_status_dead :
    statusReady "dead" = true ∧ Legacy.statusReady "dead" = false ∧
      statusError "dead" = false ∧ Legacy.statusError "dead" = true := by
  decide

/-- C9 (amended): the two variants classify every status other than `dead`
identically on both `statusReady` and `statusError`; at `dead` they
diverge — `dead` is Ready (and not an error) in the addon.js variant and an
error (and not Ready) in the legacy variant. -/
theorem claim_status_variants (s : String) (h : s ≠ "dead") :
    (statusReady s = Legacy.statusReady s ∧
        statusError s = Legacy.statusError s) ∧
      statusReady "dead" = true ∧ Legacy.statusReady "dead" = false ∧
      statusError "dead" = false ∧ Legacy.statusError "dead" = true := by
  refine ⟨⟨?_, ?_⟩, by decide, by decide, by decide, by decide⟩
  · simp [statusReady, Legacy.statusReady, h]
  · simp [statusError, Legacy.statusError, h]

/-- Witness for C9: the amended theorem at the `downloaded` status. -/
theorem claim_status_variants_witness :
    (statusReady "downloaded" = Legacy.statusReady "downloaded" ∧
        statusError "downloaded" = Legacy.statusError "downloaded") ∧
      statusReady "dead" = true ∧ Legacy.statusReady "dead" = false ∧
      statusError "dead" = false ∧ Legacy.statusError "dead" = true :=
  claim_status_variants "downloaded" (by decide)

/-! ## C10: the stream handler's id guard -/

/-- An ASCII decimal digit, `\d` of the two patterns. -/
def isAsciiDigit (c : Char) : Bool :=
  decide ('0' ≤ c) && decide (c ≤ '9')

/-- Does `/tt\d+/i` match somewhere in the character list: a
case-insensitive `t`, `t`, then at least one digit. -/
def matchesImdbId : List Char → Bool
  | a :: b :: c :: rest =>
      ((a == 't' || a == 'T') && (b == 't' || b == 'T') && isAsciiDigit c) ||
        matchesImdbId (b :: c :: rest)
  | _ => false

/-- Does `/kitsu:\d+/i` match at the head of the character list. -/
def kitsuAtHead : List Char → Bool
  | k :: i :: t :: s :: u :: c :: d :: _ =>
      (k == 'k' || k == 'K') && (i == 'i' || i == 'I') &&
        (t == 't' || t == 'T') && (s == 's' || s == 'S') &&
        (u == 'u' || u == 'U') && c == ':' && isAsciiDigit d
  | _ => false

/-- Does `/kitsu:\d+/i` match somewhere in the character list. -/
def matchesKitsuId : List Char → Bool
  | [] => false
  | c :: rest => kitsuAtHead (c :: rest) || matchesKitsuId rest

/-- The guarded stream response. -/
structure StreamResult where
  streams : List String
deriving DecidableEq

/-- The collaborators the stream handler may invoke past its guard. -/
inductive HandlerCall where
  | cacheWrap (key : String)
  | schedule
  | repoLookup (id : String)
deriving DecidableEq

/-- The stream handler (addon.js 24-46 and 138-160): an id matching neither
`/tt\d+/i` nor `/kitsu:\d+/i` resolves immediately to `{streams: []}`; any
other id enters the response-cached, admission-controlled pipeline, whose
value is the `pipeline` oracle and which touches the response cache, the
scheduler and the repository. -/
def defineStreamHandler (pipeline : String → StreamResult) (id : String) :
    StreamResult × List HandlerCall :=
  if !(matchesImdbId id.data) && !(matchesKitsuId id.data) then
    ({ streams := [] }, [])
  else
    (pipeline id,
      [HandlerCall.cacheWrap ("torrentio-addon|stream:" ++ id),
       HandlerCall.schedule, HandlerCall.repoLookup id])

/-- C10: a stream request whose id matches neither pattern resolves to the
empty stream list and invokes neither the response cache, the scheduler,
nor any repository lookup. -/
theorem claim_nonmatching_id_empty (pipeline : String → StreamResult)
    (id : String) (h1 : matchesImdbId id.data = false)
    (h2 : matchesKitsuId id.data = false) :
    defineStreamHandler pipeline id = ({ streams := [] }, []) := by
  simp [defineStreamHandler, h1, h2]

/-- Witness for C10: the guard at the unsupported id `"other:movie"`. -/
theorem claim_nonmatching_id_empty_witness :
    defineStreamHandler (fun _ => { streams := ["s"] }) "other:movie" =
      ({ streams := [] }, []) :=
  claim_nonmatching_id_empty (fun _ => { streams := ["s"] }) "other:movie"
    (by decide) (by decide)

/-! ## C7: the stream-list response cache (part_001) -/

/-- `STREAM_TTL` (part_001 line 8): 4 hours, the long TTL. -/
def STREAM_TTL : Nat := 4 * 60 * 60

/-- `STREAM_EMPTY_TTL` (part_001 line 9): 30 minutes, the short TTL. -/
def STREAM_EMPTY_TTL : Nat := 30 * 60

/-- A cached stream list (opaque entries). -/
abbrev StreamList := List String

/-- One entry of the response cache: key, value, TTL in seconds, creation
time. -/
structure CacheEntry where
  key : String
  value : StreamList
  ttl : Nat
  createdAt : Nat
deriving DecidableEq

/-- The stream cache key of an id: `` `${STREAM_KEY_PREFIX}:${id}` `` with
the prefix `torrentio-addon|stream` (part_001 lines 4-5 and 58). -/
def streamKey (id : String) : String := "torrentio-addon|stream:" ++ id

/-- The unexpired entry for a key at `now`, if any. -/
def cacheLookup (store : List CacheEntry) (now : Nat) (key : String) :
    Option CacheEntry :=
  store.find? (fun e => e.key == key && decide (now < e.createdAt + e.ttl))

/-- Modelled from the spec (§4.4): the `cache-manager` `wrap` behaviour
used by `cacheWrap` (part_001 50-55) — on a hit before expiry return the
stored value without invoking `method`; on a miss invoke it once and store
the result with the TTL the policy assigns to that result; `NO_CACHE` (or a
null cache) passes straight through to `method`.  Returns the value, the
updated store and whether `method` ran. -/
def cacheWrap (noCache : Bool) (store : List CacheEntry) (now : Nat)
    (key : String) (method : Unit → StreamList)
    (ttlPolicy : StreamList → Nat) : StreamList × List CacheEntry × Bool :=
  if noCache then (method (), store, true)
  else
    match cacheLookup store now key with
    | some e => (e.value, store, false)
    | none =>
        let value := method ()
        (value, ⟨key, value, ttlPolicy value, now⟩ :: store, true)

/-- `cacheWrapStream` (part_001 57-61): wrap under the stream key with the
outcome-dependent TTL `streams.length ? STREAM_TTL : STREAM_EMPTY_TTL`. -/
def cacheWrapStream (noCache : Bool) (store : List CacheEntry) (now : Nat)
    (id : String) (method : Unit → StreamList) :
    StreamList × List CacheEntry × Bool :=
  cacheWrap noCache store now (streamKey id) method
    (fun streams => if streams.length ≠ 0 then STREAM_TTL else STREAM_EMPTY_TTL)

/-- C7: the stream-list cache stores an empty computed result with the
short TTL and a non-empty result with the long TTL, and a hit before expiry
returns the cached value without invoking the supplied compute function
(the result does not depend on `fresh`, and the invoked flag is false). -/
theorem claim_stream_cache_ttl (store : List CacheEntry) (now : Nat)
    (id : String) (method fresh : Unit → StreamList) :
    (cacheLookup store now (streamKey id) = none → method () = [] →
        cacheWrapStream false store now id method =
          (method (), ⟨streamKey id, method (), STREAM_EMPTY_TTL, now⟩ :: store,
            true)) ∧
      (cacheLookup store now (streamKey id) = none → method () ≠ [] →
        cacheWrapStream false store now id method =
          (method (), ⟨streamKey id, method (), STREAM_TTL, now⟩ :: store,
            true)) ∧
      ∀ e, cacheLookup store now (streamKey id) = some e →
        cacheWrapStream false store now id fresh = (e.value, store, false) := by
  refine ⟨?_, ?_, ?_⟩
  · intro hmiss hempty
    simp [cacheWrapStream, cacheWrap, hmiss, hempty]
  · intro hmiss hnonempty
    have : (method ()).length ≠ 0 := by
      intro h0
      exact hnonempty (List.length_eq_zero.mp h0)
    simp [cacheWrapStream, cacheWrap, hmiss, this]
  · intro e hhit
    simp [cacheWrapStream, cacheWrap, hhit]

/-! ## C8: the admission-controlled scheduler (Bottleneck limiter) -/

/-- The `Bottleneck` construction parameters. -/
structure LimiterConfig where
  maxConcurrent : Nat
  highWater : Nat
deriving DecidableEq

/-- The limiter of the first handler variant (addon.js 18-22):
`maxConcurrent` `LIMIT_MAX_CONCURRENT || 20`, `highWater`
`LIMIT_QUEUE_SIZE || 50`, strategy OVERFLOW. -/
def limiterConfigA (envMaxConcurrent envQueueSize : Option Nat) : LimiterConfig :=
  { maxConcurrent := envMaxConcurrent.getD 20,
    highWater := envQueueSize.getD 50 }

/-- The limiter of the second handler variant (addon.js 132-136): the same
except `highWater` defaults to 100. -/
def limiterConfigB (envMaxConcurrent envQueueSize : Option Nat) : LimiterConfig :=
  { maxConcurrent := envMaxConcurrent.getD 20,
    highWater := envQueueSize.getD 100 }

/-- The scheduler's observable state: running and queued task counts. -/
structure LimiterState where
  running : Nat
  queued : Nat
deriving DecidableEq

/-- What one submission does. -/
inductive SubmitOutcome where
  | started
  | enqueued
  | rejected
deriving DecidableEq

/-- Modelled from the spec (§4.3; Bottleneck is an external library): a
submission starts immediately when a concurrency slot is free, is queued
while the wait queue is below `highWater`, and with the OVERFLOW strategy
is rejected immediately — never queued, never blocked — once the queue is
full. -/
def submit (cfg : LimiterConfig) (s : LimiterState) :
    SubmitOutcome × LimiterState :=
  if s.running < cfg.maxConcurrent then
    (SubmitOutcome.started, { s with running := s.running + 1 })
  else if s.queued < cfg.highWater then
    (SubmitOutcome.enqueued, { s with queued := s.queued + 1 })
  else (SubmitOutcome.rejected, s)

/-- C8: with all `maxConcurrent` slots busy and the queue at `highWater`,
the next submission is rejected immediately and the state is unchanged; a
submission never grows the queue beyond `highWater`; and the defaults are
`maxConcurrent = 20` with `highWater = 50` (first variant) or `100`
(second variant). -/
theorem claim_limiter_rejects (cfg : LimiterConfig) (s : LimiterState)
    (hr : s.running = cfg.maxConcurrent) (hq : s.queued = cfg.highWater) :
    submit cfg s = (SubmitOutcome.rejected, s) ∧
      (∀ s2 : LimiterState, s2.queued ≤ cfg.highWater →
        (submit cfg s2).2.queued ≤ cfg.highWater) ∧
      limiterConfigA none none = { maxConcurrent := 20, highWater := 50 } ∧
      limiterConfigB none none = { maxConcurrent := 20, highWater := 100 } := by
  refine ⟨?_, ?_, rfl, rfl⟩
  · simp [submit, hr, hq]
  · intro s2 hs2
    by_cases h1 : s2.running < cfg.maxConcurrent
    · simp [submit, h1]
      exact hs2
    · by_cases h2 : s2.queued < cfg.highWater
      · simp [submit, h1, h2]
        omega
      · simp [submit, h1, h2]
        exact hs2

/-- Witness for C8: the limiter of the first variant at its defaults, full
on both the slots and the queue. -/
theorem claim_limiter_rejects_witness :
    submit (limiterConfigA none none) ⟨20, 50⟩ =
        (SubmitOutcome.rejected, ⟨20, 50⟩) ∧
      (∀ s2 : LimiterState, s2.queued ≤ (limiterConfigA none none).highWater →
        (submit (limiterConfigA none none) s2).2.queued ≤
          (limiterConfigA none none).highWater) ∧
      limiterConfigA none none = { maxConcurrent := 20, highWater := 50 } ∧
      limiterConfigB none none = { maxConcurrent := 20, highWater := 100 } :=
  claim_limiter_rejects (limiterConfigA none none) ⟨20, 50⟩ rfl rfl

/-! ## C4-C6: the batch availability client (`_getInstantAvailable`,
addon.js 273-307) -/

/-- Structural helper for `chunkArray`, recursing on a fuel that starts at
the list's length (each step removes at least one element, so the fuel
never runs out on the reachable inputs). -/
def chunkArrayAux {α : Type} : Nat → List α → Nat → List (List α)
  | _, [], _ => []
  | 0, xs, _ => [xs]
  | _, xs, 0 => [xs]
  | fuel + 1, x :: xs, n + 1 =>
      ((x :: xs).take (n + 1)) :: chunkArrayAux fuel ((x :: xs).drop (n + 1)) (n + 1)

/-- Modelled from the spec: `chunkArray` of `mochHelper` (not among the
staged files) — split a list into consecutive chunks of at most `n`. -/
def chunkArray {α : Type} (xs : List α) (n : Nat) : List (List α) :=
  chunkArrayAux xs.length xs n

/-- A non-empty list chunks into at least one batch. -/
theorem chunkArray_ne_nil {α : Type} (x : α) (xs : List α) (n : Nat) :
    chunkArray (x :: xs) n ≠ [] := by
  cases n <;> simp [chunkArray, chunkArrayAux]

/-- One hash's availability record in the cache (`null` when absent). -/
abbrev AvailEntry := String × List (List String)

/-- The availability cache: info hash to its cached file-id groups. -/
abbrev AvailCache := List AvailEntry

/-- Modelled from the spec: the availability-cache read used by
`getCachedAvailabilityResults` (`lib/cache`, not among the staged files) —
the record stored for one hash, if any. -/
def lookupAvail (cache : AvailCache) (h : String) :
    Option (List (List String)) :=
  (cache.find? (fun entry => entry.1 == h)).map (fun entry => entry.2)

/-- Modelled from the spec: `getCachedAvailabilityResults(hashes)` — the
sub-map of the cache at the requested hashes. -/
def getCachedAvailabilityResults (cache : AvailCache)
    (hashes : List String) : List AvailEntry :=
  hashes.filterMap (fun h => (lookupAvail cache h).map (fun v => (h, v)))

/-- A JavaScript rejection value as the catch handler inspects it: its
truthiness, its `code` property and its `message` property. -/
structure JsErr where
  falsy : Bool
  code : Option Int
  message : Option String
deriving DecidableEq

/-- One batch's outcome at the provider: a JSON object, a non-object body
(`typeof response !== 'object'`), or a transport rejection. -/
inductive BatchResp where
  | obj (entries : List (String × HosterResults))
  | nonObject (body : String)
  | err (e : JsErr)
deriving DecidableEq

/-- The availability side of the provider oracle. -/
structure AvailRD where
  availResp : List String → BatchResp

/-- `processAvailabilityResults` (addon.js 309-314): normalise each hash's
hoster results through `getCachedIds`. -/
def processAvailabilityResults
    (availabilityResults : List (String × HosterResults)) : List AvailEntry :=
  availabilityResults.map (fun p => (p.1, getCachedIds p.2))

/-- The rejection `Promise.all` over the batches surfaces: the first
batch whose response is not a JSON object (that per-batch handler rejects
with a truthy `Error` whose message carries the body) or whose call
rejected. -/
def firstBatchError (rd : AvailRD) (batches : List (List String)) :
    Option JsErr :=
  batches.findSome? (fun batch =>
    match rd.availResp batch with
    | BatchResp.obj _ => none
    | BatchResp.nonObject body =>
        some ⟨false, none, some ("RD returned non JSON response: " ++ body)⟩
    | BatchResp.err e => some e)

/-- The merged successful results of all batches
(`results.reduce((all, result) => Object.assign(all, result), {})`; the
batches partition the missing hashes, so their key sets are disjoint and
the object merge is concatenation). -/
def batchResults (rd : AvailRD) (batches : List (List String)) :
    List AvailEntry :=
  (batches.map (fun batch =>
    match rd.availResp batch with
    | BatchResp.obj entries => processAvailabilityResults entries
    | _ => [])).foldl (fun a b => a ++ b) []

/-- `NON_BLACKLIST_ERRORS` (addon.js 254). -/
def NON_BLACKLIST_ERRORS : List String :=
  ["ESOCKETTIMEDOUT", "EAI_AGAIN", "504 Gateway Time-out"]

/-- Does `sub` occur as a contiguous run inside the character list. -/
def containsSub (sub : List Char) : List Char → Bool
  | [] => List.isPrefixOf sub []
  | c :: rest => List.isPrefixOf sub (c :: rest) || containsSub sub rest

/-- `message.includes(v)` on the character lists. -/
def strIncludes (s sub : String) : Bool :=
  containsSub sub.data s.data

/-- The transient-error test of the retry branch (addon.js 301):
`NON_BLACKLIST_ERRORS.some(v => error && error.message &&
error.message.includes(v))`. -/
def isTransientErr (e : JsErr) : Bool :=
  NON_BLACKLIST_ERRORS.any (fun v =>
    !e.falsy &&
      (match e.message with
       | some m => decide (m ≠ "") && strIncludes m v
       | none => false))

/-- The outcomes of `_getInstantAvailable` beyond a result map: the
non-retryable `BadTokenError`, the `TypeError` the final `console.warn`
raises when it reads `.message` of a falsy rejection, and the fuel marker
of the model (the JavaScript recursion is unbounded when the chunk size
never reaches 1). -/
inductive AvailErr where
  | badToken
  | typeErrOnWarn
  | outOfFuel
deriving DecidableEq

/-- `_getInstantAvailable(hashes, apiKey, retries = 3, maxChunkSize = 150)`
(addon.js 273-307): serve fully-cached hash lists from the cache with no
provider call; otherwise query the missing hashes in chunks and normalise.
On a rejection: provider code 8 fails immediately as `BadTokenError`; a
falsy rejection with chunk size above 1 retries with the chunk size divided
by 10 (rounded up) and `retries - 1`; a transient message with retry budget
left retries with the default chunk size 150 (the recursive call omits the
`maxChunkSize` argument); otherwise the warning path runs — reading
`.message` of a falsy rejection raises a `TypeError`, any other rejection
resolves to `undefined`.  `some`/`none` in the result model the map /
`undefined`. -/
def getInstantAvailable (rd : AvailRD) (cache : AvailCache)
    (hashes : List String) :
    Nat → Int → Nat → Except AvailErr (Option (List AvailEntry)) × List PCall
  | 0, _, _ => (Except.error AvailErr.outOfFuel, [])
  | fuel + 1, retries, maxChunkSize =>
      let cachedResults := getCachedAvailabilityResults cache hashes
      let missingHashes := hashes.filter (fun h => (lookupAvail cache h).isNone)
      if missingHashes.isEmpty then (Except.ok (some cachedResults), [])
      else
        let hashBatches := chunkArray missingHashes maxChunkSize
        let calls := hashBatches.map (fun b => PCall.instantAvail b)
        match firstBatchError rd hashBatches with
        | none =>
            (Except.ok (some (cachedResults ++ batchResults rd hashBatches)),
              calls)
        | some e =>
            if !e.falsy && e.code == some 8 then
              (Except.error AvailErr.badToken, calls)
            else if e.falsy && !(maxChunkSize == 1) then
              let r := getInstantAvailable rd cache hashes fuel (retries - 1)
                ((maxChunkSize + 9) / 10)
              (r.1, calls ++ r.2)
            else if decide (0 < retries) && isTransientErr e then
              let r := getInstantAvailable rd cache hashes fuel (retries - 1) 150
              (r.1, calls ++ r.2)
            else if e.falsy then (Except.error AvailErr.typeErrOnWarn, calls)
            else (Except.ok none, calls)

/-- Chunk-size ceiling division shrinks any size of at least 2. -/
theorem chunkDiv_lt (n : Nat) (h : 2 ≤ n) : (n + 9) / 10 < n := by
  rw [Nat.div_lt_iff_lt_mul (by norm_num : 0 < 10)]
  omega

/-- Against an oracle that rejects every batch with a falsy error, the
availability lookup on uncached hashes keeps dividing the chunk size and
finally raises the `console.warn` `TypeError` — it never resolves to the
unknown result. -/
theorem getInstantAvailable_falsy_throws (rd : AvailRD) (e : JsErr)
    (hresp : ∀ b, rd.availResp b = BatchResp.err e) (hfalsy : e.falsy = true)
    (x : String) (xs : List String) :
    ∀ fuel (retries : Int) (maxChunkSize : Nat), 1 ≤ maxChunkSize →
      maxChunkSize ≤ fuel →
      (getInstantAvailable rd [] (x :: xs) fuel retries maxChunkSize).1 =
        Except.error AvailErr.typeErrOnWarn := by
  intro fuel
  induction fuel with
  | zero => intro retries n h1 h2; omega
  | succ f ih =>
      intro retries n h1 h2
      have hmiss : ((x :: xs).filter
          (fun h => (lookupAvail [] h).isNone)) = x :: xs := by
        simp [lookupAvail]
      rw [getInstantAvailable]
      simp only [hmiss]
      rcases hb : chunkArray (x :: xs) n with _ | ⟨b, bs⟩
      · exact absurd hb (chunkArray_ne_nil x xs n)
      · have hfirst : firstBatchError rd (b :: bs) = some e := by
          simp [firstBatchError, hresp]
        simp only [List.isEmpty_cons, hb, hfirst, hfalsy, Bool.not_true,
          Bool.false_and, Bool.true_and, if_false]
        by_cases hn1 : n = 1
        · subst hn1
          simp [isTransientErr, hfalsy]
        · have hn2 : 2 ≤ n := by omega
          have hlt := chunkDiv_lt n hn2
          simp only [show (n == 1) = false from by simp [hn1], Bool.not_false,
            if_true]
          exact ih (retries - 1) ((n + 9) / 10) (by omega) (by omega)

/-- C4 (amended): a falsy (empty-body) provider rejection with chunk size
above 1 retries with the batch size divided by 10 rounded up and one unit
of retry budget spent — and this repeats until the chunk size reaches 1,
where a still-falsy rejection raises the logging `TypeError` instead of
resolving to the unknown result. -/
theorem claim_empty_response_chunk_retry (rd : AvailRD) (e : JsErr)
    (x : String) (xs : List String) (fuel : Nat) (retries : Int)
    (maxChunkSize : Nat) (hresp : ∀ b, rd.availResp b = BatchResp.err e)
    (hfalsy : e.falsy = true) (h1 : 2 ≤ maxChunkSize)
    (h2 : maxChunkSize ≤ fuel + 1) :
    (getInstantAvailable rd [] (x :: xs) (fuel + 1) retries maxChunkSize).1 =
        (getInstantAvailable rd [] (x :: xs) fuel (retries - 1)
          ((maxChunkSize + 9) / 10)).1 ∧
      (getInstantAvailable rd [] (x :: xs) (fuel + 1) retries maxChunkSize).1 =
        Except.error AvailErr.typeErrOnWarn := by
  constructor
  · have hmiss : ((x :: xs).filter
        (fun h => (lookupAvail [] h).isNone)) = x :: xs := by
      simp [lookupAvail]
    rw [getInstantAvailable]
    simp only [hmiss]
    rcases hb : chunkArray (x :: xs) maxChunkSize with _ | ⟨b, bs⟩
    · exact absurd hb (chunkArray_ne_nil x xs maxChunkSize)
    · have hfirst : firstBatchError rd (b :: bs) = some e := by
        simp [firstBatchError, hresp]
      have hn1 : (maxChunkSize == 1) = false := by
        simp only [beq_eq_false_iff_ne, ne_eq]
        omega
      simp only [List.isEmpty_cons, hb, hfirst, hfalsy, Bool.not_true,
        Bool.false_and, Bool.true_and, if_false, hn1, Bool.not_false, if_true]
      simp
  · exact getInstantAvailable_falsy_throws rd e hresp hfalsy x xs (fuel + 1)
      retries maxChunkSize (by omega) h2

/-- An oracle that rejects every availability batch with a falsy error, as
RealDebrid does on an oversized response. -/
def falsyRD : AvailRD :=
  { availResp := fun _ => BatchResp.err ⟨true, none, none⟩ }

/-- C4 as frozen is false: on persistent falsy rejections with the default
arguments (`retries = 3`, `maxChunkSize = 150`) the client retries three
times, at chunk sizes 15, 2 and 1 — four provider rounds, not the claimed
single retry — and the exhausted path raises a `TypeError` instead of
resolving to the unknown result. -/
theorem counterexample_empty_response_retries :
    getInstantAvailable falsyRD [] ["aa"] 5 3 150 =
        (Except.error AvailErr.typeErrOnWarn,
          [PCall.instantAvail ["aa"], PCall.instantAvail ["aa"],
           PCall.instantAvail ["aa"], PCall.instantAvail ["aa"]]) ∧
      (4 : Nat) ≠ 2 ∧
      (Except.error AvailErr.typeErrOnWarn :
          Except AvailErr (Option (List AvailEntry))) ≠ Except.ok none := by
  refine ⟨by decide, by decide, by decide⟩

/-- Witness for C4: the amended theorem at the falsy oracle, chunk size
150 and retry budget 3. -/
theorem claim_empty_response_chunk_retry_witness :
    (getInstantAvailable falsyRD [] ("aa" :: []) (149 + 1) 3 150).1 =
        (getInstantAvailable falsyRD [] ("aa" :: []) 149 (3 - 1)
          ((150 + 9) / 10)).1 ∧
      (getInstantAvailable falsyRD [] ("aa" :: []) (149 + 1) 3 150).1 =
        Except.error AvailErr.typeErrOnWarn :=
  claim_empty_response_chunk_retry falsyRD ⟨true, none, none⟩ "aa" [] 149 3 150
    (fun _ => rfl) rfl (by omega) (by omega)

/-- C5: a provider rejection carrying the bad-token code 8 fails the whole
availability call immediately as `BadTokenError`, with exactly the one
round of batch calls already issued and no retry, whatever the remaining
retry budget. -/
theorem claim_badtoken_immediate (rd : AvailRD) (cache : AvailCache)
    (hashes : List String) (retries : Int) (maxChunkSize fuel : Nat)
    (e : JsErr)
    (hmiss : hashes.filter (fun h => (lookupAvail cache h).isNone) ≠ [])
    (hfind : firstBatchError rd
        (chunkArray (hashes.filter (fun h => (lookupAvail cache h).isNone))
          maxChunkSize) = some e)
    (hfalsy : e.falsy = false) (hcode : e.code = some 8) :
    getInstantAvailable rd cache hashes (fuel + 1) retries maxChunkSize =
      (Except.error AvailErr.badToken,
        (chunkArray (hashes.filter (fun h => (lookupAvail cache h).isNone))
          maxChunkSize).map (fun b => PCall.instantAvail b)) := by
  rw [getInstantAvailable]
  have hne : (hashes.filter (fun h => (lookupAvail cache h).isNone)).isEmpty
      = false := by
    rcases hx : hashes.filter (fun h => (lookupAvail cache h).isNone) with _ | _
    · exact absurd hx hmiss
    · simp
  simp only [hne, Bool.false_eq_true, if_false, hfind, hfalsy, hcode,
    Bool.not_false, Bool.true_and, beq_self_eq_true, if_true]

/-- The bad-token oracle: every availability batch rejects with provider
code 8. -/
def code8RD : AvailRD :=
  { availResp := fun _ => BatchResp.err ⟨false, some 8, some "bad token"⟩ }

/-- Witness for C5: the bad-token oracle at a generous retry budget of 7;
the call still fails at once with one batch call. -/
theorem claim_badtoken_immediate_witness :
    getInstantAvailable code8RD [] ["aa"] (0 + 1) 7 150 =
      (Except.error AvailErr.badToken,
        (chunkArray ((["aa"] : List String).filter
          (fun h => (lookupAvail [] h).isNone)) 150).map
            (fun b => PCall.instantAvail b)) :=
  claim_badtoken_immediate code8RD [] ["aa"] 7 150 0 ⟨false, some 8, some "bad token"⟩
    (by decide) (by decide) rfl rfl

/-- C6: when every requested hash is already in the availability cache,
the lookup returns the cached results and issues zero provider calls. -/
theorem claim_cached_no_provider_calls (rd : AvailRD) (cache : AvailCache)
    (hashes : List String) (retries : Int) (maxChunkSize fuel : Nat)
    (hall : ∀ h ∈ hashes, (lookupAvail cache h).isSome = true) :
    getInstantAvailable rd cache hashes (fuel + 1) retries maxChunkSize =
      (Except.ok (some (getCachedAvailabilityResults cache hashes)), []) := by
  have hmiss : hashes.filter (fun h => (lookupAvail cache h).isNone) = [] := by
    rw [List.filter_eq_nil_iff]
    intro h hh
    simp [Option.isNone_iff_eq_none]
    exact Option.isSome_iff_exists.mp (hall h hh) |>.elim
      (fun v hv => by simp [hv])
  rw [getInstantAvailable]
  simp only [hmiss, List.isEmpty_nil, if_true]

/-- Witness for C6: one hash, already cached; the result is the cached
record with an empty call log. -/
theorem claim_cached_no_provider_calls_witness :
    getInstantAvailable falsyRD [("aa", [["1"]])] ["aa"] (0 + 1) 3 150 =
      (Except.ok (some (getCachedAvailabilityResults [("aa", [["1"]])] ["aa"])),
        []) :=
  claim_cached_no_provider_calls falsyRD [("aa", [["1"]])] ["aa"] 3 150 0
    (by decide)

end Scraper
